import Mathlib

/-!
Verification of the jury deliberation and evidence-impact core of the
courtroom-drama simulation (src/game_logic.py and src/game_objects.py).

Real-valued quantities (sentiment, persuasiveness, impact values and the
multiplier tables) are modelled as rationals, which reproduces the exact
arithmetic structure of the Python expressions.  Python dictionaries keyed
by strings are modelled as association lists with a lookup that returns an
Option; a Python KeyError (raised when indexing a dict with a missing key)
is modelled by propagating none.
-/

namespace CourtroomDrama

/-- An evidence record: src/game_objects.py, class Evidence.  Only the two
fields read by the impact computation are carried: the kind string stored
in self.type and the base impact stored in metadata under impact_metric. -/
structure Evidence where
  type : String
  impact_metric : ℚ
deriving DecidableEq

/-- A juror: src/game_logic.py, class Juror.  The memory list is never
read or written by any operation modelled here and is omitted. -/
structure Juror where
  id : Nat
  personality : String
  bias : String
  sentiment : ℚ
  persuasiveness : ℚ
deriving DecidableEq

/-- The case-context dictionary as consumed by Juror.evaluate_evidence:
only the special_conditions entry is read, with a missing key defaulting
to the empty list (case_context.get, src/game_logic.py lines 32 and 38). -/
structure CaseContext where
  special_conditions : List String
deriving DecidableEq

/-- Python dict lookup d[k] modelled on an association list: some v when
the key is present, none for a KeyError. -/
def dictGet {α : Type} (d : List (String × α)) (k : String) : Option α :=
  (d.find? (fun kv => kv.fst == k)).map (fun kv => kv.snd)

/-- Python d.get(k, dflt). -/
def dictGetD {α : Type} (d : List (String × α)) (k : String) (dflt : α) : α :=
  (dictGet d k).getD dflt

/-- The personality multiplier table of Evidence.calculate_impact
(src/game_objects.py lines 42-47). -/
def personality_multipliers : List (String × List (String × ℚ)) :=
  [("Analytical", [("Digital", 3/2), ("Physical", 6/5), ("Testimonial", 4/5)]),
   ("Empathetic", [("Testimonial", 3/2), ("Physical", 1), ("Digital", 4/5)]),
   ("Skeptical", [("Digital", 1), ("Physical", 1), ("Testimonial", 7/10)]),
   ("DEFAULT", [("Digital", 1), ("Physical", 1), ("Testimonial", 1)])]

/-- The bias modifier table of Evidence.calculate_impact
(src/game_objects.py lines 48-53). -/
def bias_modifiers : List (String × List (String × ℚ)) :=
  [("Favor Evidence-Based Arguments",
      [("Digital", 13/10), ("Physical", 6/5), ("Testimonial", 9/10)]),
   ("Skeptical", [("Digital", 9/10), ("Physical", 9/10), ("Testimonial", 7/10)]),
   ("Empathetic", [("Digital", 4/5), ("Physical", 9/10), ("Testimonial", 13/10)]),
   ("DEFAULT", [("Digital", 1), ("Physical", 1), ("Testimonial", 1)])]

/-- Evidence.calculate_impact (src/game_objects.py lines 40-58).  Python
evaluates the default argument personality_multipliers["DEFAULT"][self.type]
eagerly, so a kind absent from the DEFAULT row raises a KeyError before any
.get fallback applies; this is the none branch.  Otherwise the personality
row is fetched with .get(personality, {}) and the kind with
.get(type, default), and likewise for the bias table. -/
def calculate_impact (e : Evidence) (j : Juror) : Option ℚ :=
  match dictGet (dictGetD personality_multipliers "DEFAULT" []) e.type with
  | none => none
  | some default_pm =>
    let personality_multiplier :=
      (dictGet (dictGetD personality_multipliers j.personality []) e.type).getD default_pm
    match dictGet (dictGetD bias_modifiers "DEFAULT" []) e.type with
    | none => none
    | some default_bm =>
      let bias_modifier :=
        (dictGet (dictGetD bias_modifiers j.bias []) e.type).getD default_bm
      some (e.impact_metric * personality_multiplier * bias_modifier)

/-- Juror.evaluate_evidence (src/game_logic.py lines 28-44): compute the
impact, scale it by the media-attention and political-pressure nudges in
that order, then add it to sentiment with no clamping. -/
def evaluate_evidence (j : Juror) (e : Evidence) (case_context : CaseContext) :
    Option Juror :=
  match calculate_impact e j with
  | none => none
  | some impact0 =>
    let impact1 :=
      if "media_attention" ∈ case_context.special_conditions then
        if j.bias = "Favor Evidence-Based Arguments" then impact0 * (11/10)
        else if j.bias = "Empathetic" then impact0 * (9/10)
        else impact0
      else impact0
    let impact2 :=
      if "political_pressure" ∈ case_context.special_conditions then
        if j.bias = "Skeptical" then impact1 * (11/10)
        else if j.bias = "Empathetic" then impact1 * (9/10)
        else impact1
      else impact1
    some { j with sentiment := j.sentiment + impact2 }

/-- A trial event appended to Jury.trial_events.  evidence_presented
carries the per-juror impact recorded by Jury.assess_case (line 73),
opening_statement the impact appended by Game.opening_statements
(lines 313-314), witness_testimony the impact appended by
Game.examine_witnesses (lines 395-396). -/
inductive TrialEvent where
  | evidence_presented (evidence : Evidence) (case_context : CaseContext) (impact : ℚ)
  | witness_testimony (impact : ℚ)
  | opening_statement (impact : ℚ)
deriving DecidableEq

/-- One iteration of the event-replay loop of Juror.deliberate
(src/game_logic.py lines 47-51): evidence_presented re-runs
evaluate_evidence, witness_testimony adds its impact, and any other event
type (in particular opening_statement) matches no branch and leaves the
juror unchanged. -/
def replayEvent (j : Juror) (event : TrialEvent) : Option Juror :=
  match event with
  | .evidence_presented evidence case_context _ => evaluate_evidence j evidence case_context
  | .witness_testimony impact => some { j with sentiment := j.sentiment + impact }
  | .opening_statement _ => some j

/-- The full event-replay loop of Juror.deliberate, in log order. -/
def replayEvents (j : Juror) (trial_events : List TrialEvent) : Option Juror :=
  match trial_events with
  | [] => some j
  | event :: rest =>
    match replayEvent j event with
    | none => none
    | some j1 => replayEvents j1 rest

/-- The per-peer influence added inside Juror.deliberate (line 56):
(other_juror.persuasiveness - self.persuasiveness) * 0.5. -/
def influenceTerm (selfPers otherPers : ℚ) : ℚ :=
  (otherPers - selfPers) * (1/2)

/-- One iteration of the peer-influence loop of Juror.deliberate
(lines 54-57): peers with a different id add their influence term. -/
def influenceStep (acc other : Juror) : Juror :=
  if acc.id ≠ other.id then
    { acc with sentiment := acc.sentiment + influenceTerm acc.persuasiveness other.persuasiveness }
  else acc

/-- The peer-influence pass of Juror.deliberate over all_jurors. -/
def peerInfluence (j : Juror) (all_jurors : List Juror) : Juror :=
  all_jurors.foldl influenceStep j

/-- The final clamp of Juror.deliberate (line 59):
max(min(sentiment, 5), -5). -/
def clampSentiment (s : ℚ) : ℚ :=
  max (min s 5) (-5)

/-- Juror.deliberate (src/game_logic.py lines 46-59): replay the event log,
apply peer influence, clamp sentiment to [-5, 5]. -/
def deliberate (j : Juror) (trial_events : List TrialEvent) (all_jurors : List Juror) :
    Option Juror :=
  (replayEvents j trial_events).map (fun j1 =>
    let j2 := peerInfluence j1 all_jurors
    { j2 with sentiment := clampSentiment j2.sentiment })

/-- The jury: src/game_logic.py, class Jury. -/
structure Jury where
  jurors : List Juror
  trial_events : List TrialEvent
deriving DecidableEq

/-- Sum of all jurors' sentiment, as in Jury.get_verdict line 80. -/
def totalSentiment (jury : Jury) : ℚ :=
  (jury.jurors.map (fun j => j.sentiment)).sum

/-- Jury.get_verdict (src/game_logic.py lines 79-84). -/
def get_verdict (jury : Jury) : String :=
  if totalSentiment jury > 0 then "Guilty" else "Not Guilty"

/-- One iteration of the deliberate_phase loop: the juror at position i of
the live list deliberates against the shared event log and the live list,
and is updated in place. -/
def deliberateStep (trial_events : List TrialEvent) (js : List Juror) (i : Nat) :
    Option (List Juror) :=
  match js[i]? with
  | none => some js
  | some j => (deliberate j trial_events js).map (fun j2 => js.set i j2)

/-- Jury.deliberate_phase generalized to an explicit iteration order over
juror positions; the Python loop (lines 75-77) is the in-order instance. -/
def deliberate_phase_order (jury : Jury) (order : List Nat) : Option Jury :=
  (order.foldlM (deliberateStep jury.trial_events) jury.jurors).map
    (fun js => { jury with jurors := js })

/-- Jury.deliberate_phase (src/game_logic.py lines 75-77): every juror
deliberates in list order, mutated in place. -/
def deliberate_phase (jury : Jury) : Option Jury :=
  deliberate_phase_order jury (List.range jury.jurors.length)

/-- The synergy bonus loop of Game.examine_witnesses (src/game_logic.py
lines 392-393): every juror's sentiment is incremented by 1. -/
def applySynergyBonus (jurors : List Juror) : List Juror :=
  jurors.map (fun j => { j with sentiment := j.sentiment + 1 })

/-- The objection-ruling loops of Game.examine_witnesses (lines 407-412)
and Game.raise_objection (lines 430-435): +1 to every juror's sentiment on
a Sustained ruling, -1 otherwise. -/
def applyObjectionRuling (ruling : String) (jurors : List Juror) : List Juror :=
  if ruling = "Sustained" then
    jurors.map (fun j => { j with sentiment := j.sentiment + 1 })
  else
    jurors.map (fun j => { j with sentiment := j.sentiment - 1 })

/-- Modelled from the spec: the table lookup described in section 4.1,
keyed by personality (or bias) and kind, falling back to the DEFAULT row
when the personality (or bias) is unrecognized or its row lacks an entry
for that kind, with DEFAULT multipliers 1.0 unless overridden.  Used only
to compare the spec's description against calculate_impact. -/
def specLookup (tables : List (String × List (String × ℚ))) (key kind : String) : ℚ :=
  match dictGet tables key with
  | some row => (dictGet row kind).getD ((dictGet (dictGetD tables "DEFAULT" []) kind).getD 1)
  | none => (dictGet (dictGetD tables "DEFAULT" []) kind).getD 1

/-- The media-attention nudge factor of evaluate_evidence as a standalone
multiplier. -/
def mediaAttentionFactor (bias : String) (case_context : CaseContext) : ℚ :=
  if "media_attention" ∈ case_context.special_conditions then
    if bias = "Favor Evidence-Based Arguments" then 11/10
    else if bias = "Empathetic" then 9/10
    else 1
  else 1

/-- The political-pressure nudge factor of evaluate_evidence as a
standalone multiplier. -/
def politicalPressureFactor (bias : String) (case_context : CaseContext) : ℚ :=
  if "political_pressure" ∈ case_context.special_conditions then
    if bias = "Skeptical" then 11/10
    else if bias = "Empathetic" then 9/10
    else 1
  else 1

/-- C1: get_verdict returns "Guilty" iff the sum of all jurors' sentiment
values is strictly greater than 0, and "Not Guilty" otherwise; in
particular a sum of exactly 0 yields "Not Guilty". -/
theorem get_verdict_guilty_iff (jury : Jury) :
    (get_verdict jury = "Guilty" ↔ 0 < totalSentiment jury)
    ∧ (get_verdict jury = "Not Guilty" ↔ ¬ 0 < totalSentiment jury)
    ∧ (totalSentiment jury = 0 → get_verdict jury = "Not Guilty") := by
  have hne : ("Guilty" : String) ≠ "Not Guilty" := by decide
  by_cases h : totalSentiment jury > 0
  · have hv : get_verdict jury = "Guilty" := if_pos h
    exact ⟨⟨fun _ => h, fun _ => hv⟩,
      ⟨fun h2 => absurd (hv.symm.trans h2) hne, fun h2 => absurd h h2⟩,
      fun h0 => by rw [h0] at h; exact absurd h (lt_irrefl 0)⟩
  · have hv : get_verdict jury = "Not Guilty" := if_neg h
    exact ⟨⟨fun h2 => absurd (h2.symm.trans hv) hne, fun h2 => absurd h2 h⟩,
      ⟨fun _ => h, fun _ => hv⟩, fun _ => hv⟩

/-- C1 witness: a concrete jury whose sentiments sum to 0 gets the
verdict "Not Guilty". -/
theorem get_verdict_guilty_iff_witness :
    totalSentiment ⟨[⟨1, "Analytical", "Skeptical", 0, 1⟩], []⟩ = 0
    ∧ get_verdict ⟨[⟨1, "Analytical", "Skeptical", 0, 1⟩], []⟩ = "Not Guilty" :=
  ⟨by simp [totalSentiment],
   (get_verdict_guilty_iff ⟨[⟨1, "Analytical", "Skeptical", 0, 1⟩], []⟩).2.2
     (by simp [totalSentiment])⟩

/-- C2 counterexample: an opening_statement event carrying impact 2 is
ignored by deliberate, leaving sentiment at 0 rather than adding 2. -/
theorem opening_statement_ignored_cex :
    (deliberate ⟨1, "Analytical", "Skeptical", 0, 1⟩ [TrialEvent.opening_statement 2] []).map
        (fun j => j.sentiment) = some 0
    ∧ (deliberate ⟨1, "Analytical", "Skeptical", 0, 1⟩ [TrialEvent.opening_statement 2] []).map
        (fun j => j.sentiment) ≠ some 2 :=
  ⟨by decide, by decide⟩

/-- C2 amended: deliberate replays the event log in order;
evidence_presented events invoke evaluate_evidence again on the stored
evidence and case context, witness_testimony events add their carried
impact directly to sentiment, and opening_statement events are ignored
(no branch matches them, so the juror is unchanged). -/
theorem deliberate_replays_events (j : Juror) (e : Evidence) (ctx : CaseContext)
    (imp x : ℚ) (event : TrialEvent) (rest : List TrialEvent) :
    replayEvent j (TrialEvent.evidence_presented e ctx x) = evaluate_evidence j e ctx
    ∧ replayEvent j (TrialEvent.witness_testimony imp)
        = some { j with sentiment := j.sentiment + imp }
    ∧ replayEvent j (TrialEvent.opening_statement imp) = some j
    ∧ replayEvents j (event :: rest)
        = (replayEvent j event).bind (fun j1 => replayEvents j1 rest)
    ∧ (∀ peers, deliberate j (event :: rest) peers
        = ((replayEvent j event).bind (fun j1 => replayEvents j1 rest)).map (fun j1 =>
            let j2 := peerInfluence j1 peers
            { j2 with sentiment := clampSentiment j2.sentiment })) := by
  have hb : replayEvents j (event :: rest)
      = (replayEvent j event).bind (fun j1 => replayEvents j1 rest) := by
    cases h : replayEvent j event <;> simp [replayEvents, h]
  exact ⟨rfl, rfl, rfl, hb, fun peers => by rw [deliberate, hb]⟩

/-- C5 counterexample: an evidence kind absent from the DEFAULT tables
("Forensic") makes calculate_impact fail (Python raises a KeyError while
eagerly evaluating the DEFAULT lookup), so no result is returned. -/
theorem calculate_impact_unknown_kind_cex :
    calculate_impact ⟨"Forensic", 1⟩ ⟨1, "Analytical", "Skeptical", 0, 1⟩ = none := by
  decide

/-- C5 amended: calculate_impact is total for every evidence whose kind
has an entry in the DEFAULT rows (the kinds "Digital", "Physical" and
"Testimonial") and every juror with arbitrary personality and bias
strings; kinds absent from the DEFAULT rows fail with a KeyError. -/
theorem calculate_impact_total_on_known_kinds (e : Evidence) (j : Juror)
    (h : e.type = "Digital" ∨ e.type = "Physical" ∨ e.type = "Testimonial") :
    (calculate_impact e j).isSome = true := by
  rcases h with h | h | h <;> · unfold calculate_impact; rw [h]; rfl

/-- C5 witness: calculate_impact succeeds on Digital evidence for a juror
with unrecognized personality and bias strings. -/
theorem calculate_impact_total_on_known_kinds_witness :
    (calculate_impact ⟨"Digital", 1⟩ ⟨7, "Astrologer", "Contrarian", 0, 1⟩).isSome = true :=
  calculate_impact_total_on_known_kinds ⟨"Digital", 1⟩ ⟨7, "Astrologer", "Contrarian", 0, 1⟩
    (Or.inl rfl)

/-- C9 counterexample: the synergy-bonus loop of Game.examine_witnesses
mutates a juror's sentiment (from 0 to 1) even though it is neither
evaluate_evidence nor deliberate. -/
theorem synergy_mutates_sentiment_cex :
    (applySynergyBonus [⟨1, "Analytical", "Skeptical", 0, 1⟩]).map (fun j => j.sentiment) = [1]
    ∧ applySynergyBonus [⟨1, "Analytical", "Skeptical", 0, 1⟩]
        ≠ [⟨1, "Analytical", "Skeptical", 0, 1⟩] :=
  ⟨by norm_num [applySynergyBonus], by norm_num [applySynergyBonus, Juror.mk.injEq]⟩

/-- C9 amended: besides evaluate_evidence and deliberate, the surrounding
game flow also mutates juror sentiment directly: the synergy bonus adds 1
to every juror's sentiment, and an objection ruling adds 1 on "Sustained"
and subtracts 1 otherwise. -/
theorem game_flow_mutates_sentiment (jurors : List Juror) :
    (applySynergyBonus jurors).map (fun j => j.sentiment)
        = jurors.map (fun j => j.sentiment + 1)
    ∧ (applyObjectionRuling "Sustained" jurors).map (fun j => j.sentiment)
        = jurors.map (fun j => j.sentiment + 1)
    ∧ (applyObjectionRuling "Overruled" jurors).map (fun j => j.sentiment)
        = jurors.map (fun j => j.sentiment - 1) := by
  refine ⟨?_, ?_, ?_⟩ <;>
    simp [applySynergyBonus, applyObjectionRuling, List.map_map, Function.comp]

/-- The spec's fallback lookup coincides with the code's
.get(key, {}).get(kind, default) lookup whenever the DEFAULT row has an
entry for the kind. -/
theorem specLookup_eq (tables : List (String × List (String × ℚ))) (key kind : String)
    (d : ℚ) (hd : dictGet (dictGetD tables "DEFAULT" []) kind = some d) :
    specLookup tables key kind = (dictGet (dictGetD tables key []) kind).getD d := by
  cases hk : dictGet tables key with
  | none =>
    have e1 : specLookup tables key kind
        = (dictGet (dictGetD tables "DEFAULT" []) kind).getD 1 := by
      unfold specLookup; rw [hk]
    have h1 : dictGetD tables key [] = [] := by unfold dictGetD; rw [hk]; rfl
    rw [e1, h1, hd]
    rfl
  | some row =>
    have e1 : specLookup tables key kind
        = (dictGet row kind).getD ((dictGet (dictGetD tables "DEFAULT" []) kind).getD 1) := by
      unfold specLookup; rw [hk]
    have h1 : dictGetD tables key [] = row := by unfold dictGetD; rw [hk]; rfl
    rw [e1, h1]
    cases hr : dictGet row kind with
    | none => rw [hd]; rfl
    | some m => rfl

/-- C4 counterexample: for an evidence kind absent from the DEFAULT rows
("Financial"), calculate_impact returns no scalar at all (Python raises a
KeyError), so the product formula does not hold for every evidence record. -/
theorem calculate_impact_formula_cex :
    calculate_impact ⟨"Financial", 2⟩ ⟨3, "Empathetic", "Empathetic", 0, 1⟩ = none := by
  decide

/-- C4 amended: whenever the evidence kind has an entry in the DEFAULT rows,
calculate_impact returns exactly baseImpact * personalityMultiplier *
biasModifier, where each factor is looked up by (personality, kind) and
(bias, kind) with fallback to the DEFAULT row when the personality or bias
is unrecognized or lacks an entry for that kind; and the function is
deterministic in (evidence, juror). -/
theorem calculate_impact_eq_spec (e : Evidence) (j : Juror) (dp db : ℚ)
    (hp : dictGet (dictGetD personality_multipliers "DEFAULT" []) e.type = some dp)
    (hb : dictGet (dictGetD bias_modifiers "DEFAULT" []) e.type = some db) :
    calculate_impact e j
      = some (e.impact_metric * specLookup personality_multipliers j.personality e.type
          * specLookup bias_modifiers j.bias e.type)
    ∧ ∀ e2 j2, e2 = e → j2 = j → calculate_impact e2 j2 = calculate_impact e j := by
  constructor
  · rw [specLookup_eq personality_multipliers j.personality e.type dp hp,
        specLookup_eq bias_modifiers j.bias e.type db hb]
    unfold calculate_impact
    rw [hp, hb]
  · intro e2 j2 he hj
    rw [he, hj]

/-- C4 witness: Digital evidence with base impact 2 for an Analytical,
Skeptical juror. -/
theorem calculate_impact_eq_spec_witness :
    calculate_impact ⟨"Digital", 2⟩ ⟨1, "Analytical", "Skeptical", 0, 1⟩
      = some ((2 : ℚ) * specLookup personality_multipliers "Analytical" "Digital"
          * specLookup bias_modifiers "Skeptical" "Digital") :=
  (calculate_impact_eq_spec ⟨"Digital", 2⟩ ⟨1, "Analytical", "Skeptical", 0, 1⟩ 1 1 rfl rfl).1

/-- C6: evaluate_evidence scales the computed impact by the
media-attention factor (1.1 for "Favor Evidence-Based Arguments", 0.9 for
"Empathetic" when "media_attention" is a special condition) and by the
political-pressure factor (1.1 for "Skeptical", 0.9 for "Empathetic" when
"political_pressure" is a special condition), both factors stacking when
both conditions are present, and adds the result to sentiment without
clamping. -/
theorem evaluate_evidence_nudges (j : Juror) (e : Evidence) (ctx : CaseContext) (imp : ℚ)
    (h : calculate_impact e j = some imp) :
    evaluate_evidence j e ctx
      = some { j with sentiment := j.sentiment
          + imp * mediaAttentionFactor j.bias ctx * politicalPressureFactor j.bias ctx } := by
  simp only [evaluate_evidence, h, mediaAttentionFactor, politicalPressureFactor]
  split_ifs <;> simp [mul_one]

/-- C6 witness: an Empathetic-biased juror under both media attention and
political pressure receives the impact scaled by 0.9 twice. -/
theorem evaluate_evidence_nudges_witness :
    evaluate_evidence ⟨1, "Analytical", "Empathetic", 0, 1⟩ ⟨"Digital", 1⟩
        ⟨["media_attention", "political_pressure"]⟩
      = some { id := 1, personality := "Analytical", bias := "Empathetic",
               sentiment := 0 + 1 * (3/2) * (4/5)
                 * mediaAttentionFactor "Empathetic" ⟨["media_attention", "political_pressure"]⟩
                 * politicalPressureFactor "Empathetic" ⟨["media_attention", "political_pressure"]⟩,
               persuasiveness := 1 } :=
  evaluate_evidence_nudges ⟨1, "Analytical", "Empathetic", 0, 1⟩ ⟨"Digital", 1⟩
    ⟨["media_attention", "political_pressure"]⟩ (1 * (3/2) * (4/5)) rfl

/-- C3: whatever the starting sentiment and the events and peers, the
sentiment of the juror returned by deliberate lies in [-5, 5]. -/
theorem deliberate_sentiment_clamped (j : Juror) (events : List TrialEvent)
    (peers : List Juror) (j2 : Juror) (h : deliberate j events peers = some j2) :
    -5 ≤ j2.sentiment ∧ j2.sentiment ≤ 5 := by
  unfold deliberate at h
  cases hr : replayEvents j events with
  | none => rw [hr] at h; simp at h
  | some j1 =>
    rw [hr] at h
    simp only [Option.map_some'] at h
    have h2 := Option.some.inj h
    subst h2
    exact ⟨le_max_right _ _, max_le (min_le_right _ _) (by norm_num)⟩

/-- C3 witness: a juror deliberating over an empty log with no peers ends
with sentiment 0, inside [-5, 5]. -/
theorem deliberate_sentiment_clamped_witness :
    deliberate ⟨1, "Analytical", "Skeptical", 0, 1⟩ [] []
        = some ⟨1, "Analytical", "Skeptical", 0, 1⟩
    ∧ (-5 ≤ (⟨1, "Analytical", "Skeptical", 0, 1⟩ : Juror).sentiment
        ∧ (⟨1, "Analytical", "Skeptical", 0, 1⟩ : Juror).sentiment ≤ 5) :=
  ⟨by decide,
   deliberate_sentiment_clamped ⟨1, "Analytical", "Skeptical", 0, 1⟩ [] []
     ⟨1, "Analytical", "Skeptical", 0, 1⟩ (by decide)⟩

/-- The peer-influence pass adds exactly one influence term per peer with
a different id, and leaves the starting sentiment otherwise untouched. -/
theorem peerInfluence_sentiment (peers : List Juror) : ∀ j : Juror,
    (peerInfluence j peers).sentiment
      = j.sentiment + ((peers.filter (fun o => j.id != o.id)).map
          (fun o => influenceTerm j.persuasiveness o.persuasiveness)).sum := by
  induction peers with
  | nil => intro j; simp [peerInfluence]
  | cons o rest ih =>
    intro j
    have hcons : peerInfluence j (o :: rest) = peerInfluence (influenceStep j o) rest := rfl
    by_cases h : j.id = o.id
    · have hs : influenceStep j o = j := by unfold influenceStep; simp [h]
      rw [hcons, hs, ih j, List.filter_cons_of_neg (by simp [h])]
    · have hs : influenceStep j o
          = { j with sentiment := j.sentiment
              + influenceTerm j.persuasiveness o.persuasiveness } := by
        unfold influenceStep; rw [if_pos h]
      rw [hcons, hs, ih, List.filter_cons_of_pos (by simp [h])]
      simp
      ring

/-- C7: during one deliberate call, each peer with a different id
contributes exactly (other.persuasiveness - self.persuasiveness) * 0.5 to
sentiment, once per peer, and the influence term A receives from B is the
exact negation of the one B receives from A. -/
theorem deliberate_peer_influence (j : Juror) (peers : List Juror) (a b : Juror)
    (events : List TrialEvent) :
    (peerInfluence j peers).sentiment
      = j.sentiment + ((peers.filter (fun o => j.id != o.id)).map
          (fun o => influenceTerm j.persuasiveness o.persuasiveness)).sum
    ∧ influenceTerm a.persuasiveness b.persuasiveness
        = -(influenceTerm b.persuasiveness a.persuasiveness)
    ∧ deliberate j events peers = (replayEvents j events).map (fun j1 =>
        let j2 := peerInfluence j1 peers
        { j2 with sentiment := clampSentiment j2.sentiment }) :=
  ⟨peerInfluence_sentiment peers j, by unfold influenceTerm; ring, rfl⟩

/-- The absolute value of a list sum is at most the length times a common
bound on the absolute values of the entries. -/
theorem abs_list_sum_le (c : ℚ) : ∀ l : List ℚ, (∀ x ∈ l, |x| ≤ c) →
    |l.sum| ≤ (l.length : ℚ) * c := by
  intro l
  induction l with
  | nil => intro _; simp
  | cons x rest ih =>
    intro h
    have hx := h x (List.mem_cons_self x rest)
    have hr := ih (fun y hy => h y (List.mem_cons_of_mem x hy))
    calc |(x :: rest).sum| = |x + rest.sum| := by rw [List.sum_cons]
      _ ≤ |x| + |rest.sum| := abs_add _ _
      _ ≤ c + (rest.length : ℚ) * c := add_le_add hx hr
      _ = ((x :: rest).length : ℚ) * c := by
          rw [List.length_cons]
          push_cast
          ring

/-- C10: if every persuasiveness lies in [0.5, 1.5], each influence term
has absolute value at most 0.5, and the whole peer-influence pass of one
deliberate call changes sentiment by at most 0.5 times the number of
other jurors. -/
theorem peer_influence_bounded (j : Juror) (peers : List Juror)
    (hj : 1/2 ≤ j.persuasiveness ∧ j.persuasiveness ≤ 3/2)
    (hp : ∀ o ∈ peers, 1/2 ≤ o.persuasiveness ∧ o.persuasiveness ≤ 3/2) :
    (∀ o ∈ peers, |influenceTerm j.persuasiveness o.persuasiveness| ≤ 1/2)
    ∧ |(peerInfluence j peers).sentiment - j.sentiment|
        ≤ (1/2) * (((peers.filter (fun o => j.id != o.id)).length : ℚ)) := by
  have hterm : ∀ o ∈ peers, |influenceTerm j.persuasiveness o.persuasiveness| ≤ 1/2 := by
    intro o ho
    obtain ⟨h1, h2⟩ := hj
    obtain ⟨h3, h4⟩ := hp o ho
    unfold influenceTerm
    rw [abs_mul]
    have habs : |o.persuasiveness - j.persuasiveness| ≤ 1 := by
      rw [abs_le]; constructor <;> linarith
    calc |o.persuasiveness - j.persuasiveness| * |(1/2 : ℚ)|
        = |o.persuasiveness - j.persuasiveness| * (1/2) := by norm_num
      _ ≤ 1 * (1/2) := by
          exact mul_le_mul_of_nonneg_right habs (by norm_num)
      _ = 1/2 := by norm_num
  refine ⟨hterm, ?_⟩
  rw [peerInfluence_sentiment peers j, add_sub_cancel_left]
  have hall : ∀ x ∈ (peers.filter (fun o => j.id != o.id)).map
      (fun o => influenceTerm j.persuasiveness o.persuasiveness), |x| ≤ 1/2 := by
    intro x hx
    obtain ⟨o, ho, rfl⟩ := List.mem_map.mp hx
    exact hterm o (List.mem_of_mem_filter ho)
  have hlen := abs_list_sum_le (1/2) _ hall
  rw [List.length_map] at hlen
  calc |((peers.filter (fun o => j.id != o.id)).map
      (fun o => influenceTerm j.persuasiveness o.persuasiveness)).sum|
      ≤ (((peers.filter (fun o => j.id != o.id)).length : ℚ)) * (1/2) := hlen
    _ = (1/2) * (((peers.filter (fun o => j.id != o.id)).length : ℚ)) := by ring

/-- C10 witness: one peer at the extreme persuasiveness 1.5 against a
juror at persuasiveness 1 changes sentiment by at most 0.5. -/
theorem peer_influence_bounded_witness :
    |(peerInfluence ⟨1, "Analytical", "Skeptical", 0, 1⟩
        [⟨2, "Empathetic", "Empathetic", 0, 3/2⟩]).sentiment
      - (⟨1, "Analytical", "Skeptical", 0, 1⟩ : Juror).sentiment|
      ≤ (1/2) * ((([⟨2, "Empathetic", "Empathetic", 0, 3/2⟩] : List Juror).filter
          (fun o => (⟨1, "Analytical", "Skeptical", 0, 1⟩ : Juror).id != o.id)).length : ℚ) :=
  (peer_influence_bounded ⟨1, "Analytical", "Skeptical", 0, 1⟩
    [⟨2, "Empathetic", "Empathetic", 0, 3/2⟩] (by norm_num)
    (by intro o ho
        rw [List.mem_singleton] at ho
        subst ho
        norm_num)).2


theorem influenceStep_id (acc o : Juror) : (influenceStep acc o).id = acc.id := by
  unfold influenceStep; split <;> rfl

theorem influenceStep_pers (acc o : Juror) :
    (influenceStep acc o).persuasiveness = acc.persuasiveness := by
  unfold influenceStep; split <;> rfl

theorem peerInfluence_pres (peers : List Juror) : ∀ j : Juror,
    (peerInfluence j peers).id = j.id
    ∧ (peerInfluence j peers).persuasiveness = j.persuasiveness := by
  induction peers with
  | nil => intro j; exact ⟨rfl, rfl⟩
  | cons o rest ih =>
    intro j
    have hcons : peerInfluence j (o :: rest) = peerInfluence (influenceStep j o) rest := rfl
    rw [hcons]
    obtain ⟨h1, h2⟩ := ih (influenceStep j o)
    exact ⟨h1.trans (influenceStep_id j o), h2.trans (influenceStep_pers j o)⟩

theorem evaluate_evidence_pres (j : Juror) (e : Evidence) (cc : CaseContext) (j2 : Juror)
    (h : evaluate_evidence j e cc = some j2) :
    j2.id = j.id ∧ j2.persuasiveness = j.persuasiveness := by
  unfold evaluate_evidence at h
  cases hc : calculate_impact e j with
  | none => rw [hc] at h; simp at h
  | some imp =>
    rw [hc] at h
    have h2 := Option.some.inj h
    subst h2
    exact ⟨rfl, rfl⟩

theorem replayEvent_pres (j : Juror) (ev : TrialEvent) (j2 : Juror)
    (h : replayEvent j ev = some j2) :
    j2.id = j.id ∧ j2.persuasiveness = j.persuasiveness := by
  cases ev with
  | evidence_presented e cc x => exact evaluate_evidence_pres j e cc j2 h
  | witness_testimony imp =>
    have h2 := Option.some.inj h
    subst h2
    exact ⟨rfl, rfl⟩
  | opening_statement imp =>
    have h2 := Option.some.inj h
    subst h2
    exact ⟨rfl, rfl⟩

theorem replayEvents_pres (events : List TrialEvent) : ∀ j j1 : Juror,
    replayEvents j events = some j1 →
    j1.id = j.id ∧ j1.persuasiveness = j.persuasiveness := by
  induction events with
  | nil =>
    intro j j1 h
    have h2 := Option.some.inj h
    subst h2
    exact ⟨rfl, rfl⟩
  | cons ev rest ih =>
    intro j j1 h
    unfold replayEvents at h
    cases hre : replayEvent j ev with
    | none => rw [hre] at h; simp at h
    | some ja =>
      rw [hre] at h
      obtain ⟨a1, a2⟩ := ih ja j1 h
      obtain ⟨b1, b2⟩ := replayEvent_pres j ev ja hre
      exact ⟨a1.trans b1, a2.trans b2⟩

theorem deliberate_pres (j : Juror) (events : List TrialEvent) (peers : List Juror)
    (j2 : Juror) (h : deliberate j events peers = some j2) :
    j2.id = j.id ∧ j2.persuasiveness = j.persuasiveness := by
  unfold deliberate at h
  cases hr : replayEvents j events with
  | none => rw [hr] at h; simp at h
  | some j1 =>
    rw [hr] at h
    simp only [Option.map_some'] at h
    have h2 := Option.some.inj h
    obtain ⟨p1, p2⟩ := peerInfluence_pres peers j1
    obtain ⟨r1, r2⟩ := replayEvents_pres events j j1 hr
    subst h2
    exact ⟨p1.trans r1, p2.trans r2⟩

def peerSig (js : List Juror) : List (Nat × ℚ) :=
  js.map (fun o => (o.id, o.persuasiveness))

theorem influenceStep_congr (acc o1 o2 : Juror) (hid : o1.id = o2.id)
    (hpe : o1.persuasiveness = o2.persuasiveness) :
    influenceStep acc o1 = influenceStep acc o2 := by
  unfold influenceStep; rw [hid, hpe]

theorem peerInfluence_congr : ∀ js1 js2 : List Juror, peerSig js1 = peerSig js2 →
    ∀ j : Juror, peerInfluence j js1 = peerInfluence j js2 := by
  intro js1
  induction js1 with
  | nil =>
    intro js2 h j
    cases js2 with
    | nil => rfl
    | cons o2 r2 => simp [peerSig] at h
  | cons o1 r1 ih =>
    intro js2 h j
    cases js2 with
    | nil => simp [peerSig] at h
    | cons o2 r2 =>
      simp only [peerSig, List.map_cons, List.cons.injEq, Prod.mk.injEq] at h
      obtain ⟨⟨hid, hpe⟩, htail⟩ := h
      have hc1 : peerInfluence j (o1 :: r1) = peerInfluence (influenceStep j o1) r1 := rfl
      have hc2 : peerInfluence j (o2 :: r2) = peerInfluence (influenceStep j o2) r2 := rfl
      rw [hc1, hc2, influenceStep_congr j o1 o2 hid hpe]
      exact ih r2 htail (influenceStep j o2)

theorem deliberate_congr (j : Juror) (events : List TrialEvent) (js1 js2 : List Juror)
    (h : peerSig js1 = peerSig js2) : deliberate j events js1 = deliberate j events js2 := by
  unfold deliberate
  cases hr : replayEvents j events with
  | none => rfl
  | some j1 =>
    simp only [Option.map_some']
    rw [peerInfluence_congr js1 js2 h j1]

theorem list_set_self {α : Type} : ∀ (l : List α) (i : Nat) (a : α),
    l[i]? = some a → l.set i a = l := by
  intro l
  induction l with
  | nil => intro i a h; simp at h
  | cons x rest ih =>
    intro i a h
    cases i with
    | zero =>
      simp only [List.getElem?_cons_zero, Option.some.injEq] at h
      rw [show (x :: rest).set 0 a = a :: rest from rfl, h]
    | succ n =>
      simp only [List.getElem?_cons_succ] at h
      rw [show (x :: rest).set (n + 1) a = x :: rest.set n a from rfl, ih n a h]

theorem peerSig_set (js : List Juror) (i : Nat) (j j2 : Juror) (hg : js[i]? = some j)
    (hid : j2.id = j.id) (hpe : j2.persuasiveness = j.persuasiveness) :
    peerSig (js.set i j2) = peerSig js := by
  unfold peerSig
  rw [List.map_set]
  have hg2 : (js.map (fun o => (o.id, o.persuasiveness)))[i]? = some (j.id, j.persuasiveness) := by
    rw [List.getElem?_map, hg]; rfl
  rw [show ((j2.id, j2.persuasiveness) : Nat × ℚ) = (j.id, j.persuasiveness) from by
        rw [hid, hpe]]
  exact list_set_self _ i _ hg2

theorem deliberateStep_of_none (events : List TrialEvent) (js : List Juror) (i : Nat)
    (h : js[i]? = none) : deliberateStep events js i = some js := by
  unfold deliberateStep; rw [h]

theorem deliberateStep_of_some (events : List TrialEvent) (js : List Juror) (i : Nat)
    (j : Juror) (h : js[i]? = some j) :
    deliberateStep events js i = (deliberate j events js).map (fun j2 => js.set i j2) := by
  unfold deliberateStep; rw [h]

theorem deliberateStep_comm (events : List TrialEvent) (js : List Juror) (i k : Nat)
    (hik : i ≠ k) :
    (deliberateStep events js i).bind (fun js1 => deliberateStep events js1 k)
      = (deliberateStep events js k).bind (fun js1 => deliberateStep events js1 i) := by
  have hki : k ≠ i := Ne.symm hik
  cases hgi : js[i]? with
  | none =>
    cases hgk : js[k]? with
    | none =>
      rw [deliberateStep_of_none events js i hgi, deliberateStep_of_none events js k hgk,
          Option.some_bind, Option.some_bind, deliberateStep_of_none events js i hgi,
          deliberateStep_of_none events js k hgk]
    | some jk =>
      rw [deliberateStep_of_none events js i hgi, Option.some_bind,
          deliberateStep_of_some events js k jk hgk]
      cases hdk : deliberate jk events js with
      | none => rfl
      | some jk2 =>
        have hgi2 : (js.set k jk2)[i]? = none := by
          rw [List.getElem?_set_ne hki]; exact hgi
        simp only [Option.map_some', Option.some_bind]
        rw [deliberateStep_of_none events _ i hgi2]
  | some ji =>
    cases hgk : js[k]? with
    | none =>
      rw [deliberateStep_of_none events js k hgk, Option.some_bind,
          deliberateStep_of_some events js i ji hgi]
      cases hdi : deliberate ji events js with
      | none => rfl
      | some ji2 =>
        have hgk2 : (js.set i ji2)[k]? = none := by
          rw [List.getElem?_set_ne hik]; exact hgk
        simp only [Option.map_some', Option.some_bind]
        rw [deliberateStep_of_none events _ k hgk2]
    | some jk =>
      rw [deliberateStep_of_some events js i ji hgi, deliberateStep_of_some events js k jk hgk]
      cases hdi : deliberate ji events js with
      | none =>
        cases hdk : deliberate jk events js with
        | none => rfl
        | some jk2 =>
          obtain ⟨pid, ppe⟩ := deliberate_pres jk events js jk2 hdk
          have hsig : peerSig (js.set k jk2) = peerSig js := peerSig_set js k jk jk2 hgk pid ppe
          have hgi2 : (js.set k jk2)[i]? = some ji := by
            rw [List.getElem?_set_ne hki]; exact hgi
          have hdi2 : deliberate ji events (js.set k jk2) = none :=
            (deliberate_congr ji events _ js hsig).trans hdi
          simp only [Option.map_some', Option.some_bind]
          rw [deliberateStep_of_some events _ i ji hgi2, hdi2]
          rfl
      | some ji2 =>
        obtain ⟨pidi, ppei⟩ := deliberate_pres ji events js ji2 hdi
        have hsigi : peerSig (js.set i ji2) = peerSig js := peerSig_set js i ji ji2 hgi pidi ppei
        have hgk2 : (js.set i ji2)[k]? = some jk := by
          rw [List.getElem?_set_ne hik]; exact hgk
        cases hdk : deliberate jk events js with
        | none =>
          have hdk2 : deliberate jk events (js.set i ji2) = none :=
            (deliberate_congr jk events _ js hsigi).trans hdk
          simp only [Option.map_some', Option.some_bind]
          rw [deliberateStep_of_some events _ k jk hgk2, hdk2]
          rfl
        | some jk2 =>
          obtain ⟨pidk, ppek⟩ := deliberate_pres jk events js jk2 hdk
          have hsigk : peerSig (js.set k jk2) = peerSig js := peerSig_set js k jk jk2 hgk pidk ppek
          have hgi2 : (js.set k jk2)[i]? = some ji := by
            rw [List.getElem?_set_ne hki]; exact hgi
          have hdi2 : deliberate ji events (js.set k jk2) = some ji2 :=
            (deliberate_congr ji events _ js hsigk).trans hdi
          have hdk2 : deliberate jk events (js.set i ji2) = some jk2 :=
            (deliberate_congr jk events _ js hsigi).trans hdk
          simp only [Option.map_some', Option.some_bind]
          rw [deliberateStep_of_some events _ k jk hgk2, deliberateStep_of_some events _ i ji hgi2,
              hdi2, hdk2]
          simp only [Option.map_some']
          rw [List.set_comm ji2 jk2 js hik]

theorem foldlM_deliberateStep_perm (events : List TrialEvent) :
    ∀ {l1 l2 : List Nat}, l1.Perm l2 → l1.Nodup →
    ∀ js : List Juror, List.foldlM (deliberateStep events) js l1
      = List.foldlM (deliberateStep events) js l2 := by
  intro l1 l2 hperm
  induction hperm with
  | nil => intro _ js; rfl
  | cons x htail ih =>
    intro hnd js
    rw [List.foldlM_cons, List.foldlM_cons]
    cases hs : deliberateStep events js x with
    | none => rfl
    | some js2 => exact ih (List.Nodup.of_cons hnd) js2
  | swap x y l =>
    intro hnd js
    have hxy : y ≠ x := fun he => (List.nodup_cons.mp hnd).1 (he ▸ List.mem_cons_self x l)
    have hcomm := deliberateStep_comm events js y x hxy
    show ((deliberateStep events js y).bind fun a =>
        (deliberateStep events a x).bind fun b => List.foldlM (deliberateStep events) b l)
      = ((deliberateStep events js x).bind fun a =>
        (deliberateStep events a y).bind fun b => List.foldlM (deliberateStep events) b l)
    rw [← Option.bind_assoc, ← Option.bind_assoc, hcomm]
  | trans h1 h2 ih1 ih2 =>
    intro hnd js
    rw [ih1 hnd js, ih2 (h1.nodup_iff.mp hnd) js]

/-- C8: deliberate_phase is independent of the order in which jurors are
iterated: driving the per-juror deliberate calls in any permutation of the
juror positions yields the same jurors (and hence the same verdict),
because each call mutates only its own juror and reads only the immutable
ids and persuasiveness of peers together with the shared event log. -/
theorem deliberate_phase_order_perm (jury : Jury) (order : List Nat)
    (h : order.Perm (List.range jury.jurors.length)) :
    deliberate_phase_order jury order = deliberate_phase jury
    ∧ (deliberate_phase_order jury order).map get_verdict
        = (deliberate_phase jury).map get_verdict := by
  have hnd : order.Nodup := h.nodup_iff.mpr (List.nodup_range _)
  have hfold := foldlM_deliberateStep_perm jury.trial_events h hnd jury.jurors
  have h1 : deliberate_phase_order jury order = deliberate_phase jury := by
    unfold deliberate_phase deliberate_phase_order
    rw [hfold]
  exact ⟨h1, by rw [h1]⟩

/-- C8 witness: a two-juror jury deliberating in reversed order reaches
the same state as in list order. -/
theorem deliberate_phase_order_perm_witness :
    deliberate_phase_order ⟨[⟨1, "Analytical", "Skeptical", 0, 1⟩,
        ⟨2, "Empathetic", "Empathetic", 0, 1⟩], [TrialEvent.witness_testimony 1]⟩ [1, 0]
      = deliberate_phase ⟨[⟨1, "Analytical", "Skeptical", 0, 1⟩,
        ⟨2, "Empathetic", "Empathetic", 0, 1⟩], [TrialEvent.witness_testimony 1]⟩ :=
  (deliberate_phase_order_perm ⟨[⟨1, "Analytical", "Skeptical", 0, 1⟩,
        ⟨2, "Empathetic", "Empathetic", 0, 1⟩], [TrialEvent.witness_testimony 1]⟩ [1, 0]
    (by decide)).1

end CourtroomDrama
